import Mathlib

/-!
Shallow embedding of the `audio` Go package (WAV PCM header parsing,
validation, and the Merge / Concat stream combinators).

Bytes are modelled as natural numbers, byte streams as `List Nat`,
machine integers as `Nat` with explicit `% 2^32` / `% 2^16` where the Go
code performs `uint32` / `uint16` arithmetic.  The `io.ReadSeeker` held
by a handle is modelled by the byte list that follows the 44-byte header
(`payload`) together with a cursor (`pos`); `Read` on such a source
returns `min bufSize remaining` bytes and reports `io.EOF` exactly when
no byte remains, which is the behaviour of `os.File` and `bytes.Reader`.
-/

namespace Audio

/-- ASCII bytes of the constant `chunkID = "RIFF"`. -/
def riffTag : List Nat := [82, 73, 70, 70]

/-- ASCII bytes of the constant `format = "WAVE"`. -/
def waveTag : List Nat := [87, 65, 86, 69]

/-- ASCII bytes of the constant `subChunkID = "fmt "`. -/
def fmtTag : List Nat := [102, 109, 116, 32]

/-- ASCII bytes of the constant `subChunk2ID = "data"`. -/
def dataTag : List Nat := [100, 97, 116, 97]

/-- The constant `mono uint16 = 1`. -/
def mono : Nat := 1

/-- The constant `stereo uint16 = 2`. -/
def stereo : Nat := 2

/-- The constant `subChunk1Size uint32 = 16`. -/
def subChunk1Size : Nat := 16

/-- The constant `audioFormat uint16 = 1`. -/
def audioFormat : Nat := 1

/-- The `headers` struct of `audio.go`: the fixed 44-byte field layout of
a WAV file.  Four-byte ASCII tags are byte lists, numeric fields are the
natural values of the corresponding `uint16` / `uint32` fields. -/
structure Headers where
  ChunkID : List Nat
  ChunkSize : Nat
  Format : List Nat
  SubChunk1ID : List Nat
  SubChunk1Size : Nat
  AudioFormat : Nat
  NumChannels : Nat
  SampleRate : Nat
  ByteRate : Nat
  BlockAlign : Nat
  BitsPerSample : Nat
  SubChunk2ID : List Nat
  SubChunk2Size : Nat
deriving DecidableEq, Repr

/-- Well-formedness of a `Headers` value as the image of a real Go
`headers` struct: tags are exactly 4 bytes, every byte is below 256, and
each numeric field fits its machine width. -/
def Headers.WF (h : Headers) : Prop :=
  h.ChunkID.length = 4 ∧ h.Format.length = 4 ∧
  h.SubChunk1ID.length = 4 ∧ h.SubChunk2ID.length = 4 ∧
  (∀ b ∈ h.ChunkID, b < 256) ∧ (∀ b ∈ h.Format, b < 256) ∧
  (∀ b ∈ h.SubChunk1ID, b < 256) ∧ (∀ b ∈ h.SubChunk2ID, b < 256) ∧
  h.ChunkSize < 4294967296 ∧ h.SubChunk1Size < 4294967296 ∧
  h.SampleRate < 4294967296 ∧ h.ByteRate < 4294967296 ∧
  h.SubChunk2Size < 4294967296 ∧
  h.AudioFormat < 65536 ∧ h.NumChannels < 65536 ∧
  h.BlockAlign < 65536 ∧ h.BitsPerSample < 65536

instance (h : Headers) : Decidable h.WF := by
  unfold Headers.WF; infer_instance

/-- Little-endian bytes of a `uint16`, as written by `binary.Write`. -/
def u16le (v : Nat) : List Nat := [v % 256, v / 256 % 256]

/-- Little-endian bytes of a `uint32`, as written by `binary.Write`. -/
def u32le (v : Nat) : List Nat :=
  [v % 256, v / 256 % 256, v / 65536 % 256, v / 16777216 % 256]

/-- Little-endian value of a byte list, as read by `binary.Read`. -/
def fromLE : List Nat → Nat
  | [] => 0
  | b :: bs => b + 256 * fromLE bs

/-- The 44-byte stream produced by
`binary.Write(output, binary.LittleEndian, h)` for a `headers` value:
each field serialized in declaration order, little-endian. -/
def encodeHeaders (h : Headers) : List Nat :=
  h.ChunkID ++ u32le h.ChunkSize ++ h.Format ++ h.SubChunk1ID ++
  u32le h.SubChunk1Size ++ u16le h.AudioFormat ++ u16le h.NumChannels ++
  u32le h.SampleRate ++ u32le h.ByteRate ++ u16le h.BlockAlign ++
  u16le h.BitsPerSample ++ h.SubChunk2ID ++ u32le h.SubChunk2Size

/-- The parse performed by
`binary.Read(data, binary.LittleEndian, &p.headers)`: a single read of
the 44 bytes the struct occupies (failing with no partial result when
fewer are available, as `io.ReadFull` does), then the thirteen fields
decoded from that buffer at their fixed offsets, little-endian, with no
semantic validation.  Returns the decoded header together with the
unread remainder of the stream. -/
def decodeHeaders (bs : List Nat) : Option (Headers × List Nat) :=
  if 44 ≤ bs.length then
    some (⟨bs.take 4, fromLE ((bs.drop 4).take 4), (bs.drop 8).take 4,
      (bs.drop 12).take 4, fromLE ((bs.drop 16).take 4),
      fromLE ((bs.drop 20).take 2), fromLE ((bs.drop 22).take 2),
      fromLE ((bs.drop 24).take 4), fromLE ((bs.drop 28).take 4),
      fromLE ((bs.drop 32).take 2), fromLE ((bs.drop 34).take 2),
      (bs.drop 36).take 4, fromLE ((bs.drop 40).take 4)⟩, bs.drop 44)
  else none

/-- The `PCMAudio` struct: a decoded header, the byte stream it came
from (modelled by the bytes after the 44-byte header plus the cursor
position of the underlying `io.ReadSeeker`), and the `valid` flag. -/
structure PCMAudio where
  hd : Headers
  payload : List Nat
  pos : Nat
  valid : Bool
deriving DecidableEq, Repr

/-- `NewPCMAudio`: decode a header from the byte source; on failure
return no handle at all, on success return an unvalidated handle whose
cursor sits right after the 44 header bytes. -/
def NewPCMAudio (bs : List Nat) : Option PCMAudio :=
  match decodeHeaders bs with
  | none => none
  | some (h, rest) => some ⟨h, rest, 44, false⟩

/-- The five distinct error kinds of `Validate`, in source order. -/
inductive ValErr
  | riffMismatch
  | formatMismatch
  | fmtChunkMismatch
  | notPCM
  | dataMismatch
deriving DecidableEq, Repr

/-- The check cascade of `PCMAudio.Validate`: a `switch` whose first
matching case returns the corresponding error; `none` means the header
passed every check. -/
def validateH (h : Headers) : Option ValErr :=
  if h.ChunkID ≠ riffTag then some .riffMismatch
  else if h.Format ≠ waveTag then some .formatMismatch
  else if h.SubChunk1ID ≠ fmtTag then some .fmtChunkMismatch
  else if h.SubChunk1Size ≠ subChunk1Size ∨ h.AudioFormat ≠ audioFormat then
    some .notPCM
  else if h.SubChunk2ID ≠ dataTag then some .dataMismatch
  else none

/-- `PCMAudio.Validate`: runs the header checks and, only on success,
sets the `valid` flag on the handle. -/
def Validate (p : PCMAudio) : PCMAudio × Bool × Option ValErr :=
  match validateH p.hd with
  | none => ({ p with valid := true }, true, none)
  | some e => (p, false, some e)

/-- The distinct precondition error kinds shared by `Merge` and
`checkRequiredParams`, in source order. -/
inductive AudioErr
  | notValidated
  | rateMismatch
  | bitsMismatch
  | channelsMismatch
deriving DecidableEq, Repr

/-- One iteration plus recursion of the `for` loop inside
`PCMAudio.Merge`, driven by explicit fuel (the loop itself consumes at
least one byte per iteration, so `l.length + r.length + 1` fuel is
always enough; see `mergeLoopF_fuel`).  Each iteration reads one
`sampleSize`-byte buffer from each side, where a read returns
`min s remaining` bytes and reports `io.EOF` exactly when the side is
already empty.  Returns the bytes written together with the unread
suffixes of both sides at loop exit. -/
def mergeLoopF : Nat → Nat → List Nat → List Nat → List Nat × List Nat × List Nat
  | 0, _, l, r => ([], l, r)
  | fuel + 1, s, l, r =>
    if (l = [] ∨ min s l.length = 0) ∧ (r = [] ∨ min s r.length = 0) then
      ([], l.drop s, r.drop s)
    else
      let outL := if min s l.length = s then l.take s else List.replicate s 0
      let outR := if min s r.length = s then r.take s else List.replicate s 0
      if l = [] ∨ r = [] then
        (outL ++ outR, l.drop s, r.drop s)
      else
        let res := mergeLoopF fuel s (l.drop s) (r.drop s)
        (outL ++ outR ++ res.1, res.2.1, res.2.2)

/-- The `Merge` read loop on the two payloads (both cursors start at the
first payload byte, after the `Seek(44, io.SeekStart)` calls). -/
def mergeLoop (s : Nat) (l r : List Nat) : List Nat × List Nat × List Nat :=
  mergeLoopF (l.length + r.length + 1) s l r

/-- The output header built inside `PCMAudio.Merge` (receiver `p` is the
left file): `uint32` arithmetic is mod `2^32`, `uint16` arithmetic mod
`2^16`. -/
def mergeHeaders (p q : Headers) : Headers where
  ChunkID := riffTag
  ChunkSize := (36 + p.SubChunk2Size + q.SubChunk2Size) % 4294967296
  Format := waveTag
  SubChunk1ID := fmtTag
  SubChunk1Size := subChunk1Size
  AudioFormat := audioFormat
  NumChannels := stereo
  SampleRate := p.SampleRate
  ByteRate := (p.SampleRate * ((stereo * (p.BitsPerSample / 8)) % 65536)) % 4294967296
  BlockAlign := (stereo * (p.BitsPerSample / 8)) % 65536
  BitsPerSample := p.BitsPerSample
  SubChunk2ID := dataTag
  SubChunk2Size := (p.SubChunk2Size + q.SubChunk2Size) % 4294967296

/-- `PCMAudio.Merge p q output`: precondition checks in source order,
then the new header is written, both inputs are re-seeked to byte 44,
and the read loop interleaves the payloads.  Result: the error (if any),
the bytes written to `output`, and the two handles as they stand after
the call (their cursors advance by the bytes the loop consumed; a failed
precondition check returns before touching either handle). -/
def mergeRun (p q : PCMAudio) : Option AudioErr × List Nat × PCMAudio × PCMAudio :=
  if p.valid = false ∨ q.valid = false then (some .notValidated, [], p, q)
  else if p.hd.SampleRate ≠ q.hd.SampleRate then (some .rateMismatch, [], p, q)
  else if p.hd.BitsPerSample ≠ q.hd.BitsPerSample then (some .bitsMismatch, [], p, q)
  else
    let res := mergeLoop (p.hd.BitsPerSample / 8) p.payload q.payload
    (none, encodeHeaders (mergeHeaders p.hd q.hd) ++ res.1,
      { p with pos := 44 + (p.payload.length - res.2.1.length) },
      { q with pos := 44 + (q.payload.length - res.2.2.length) })

/-- `checkRequiredParams` from the source: the four precondition checks
shared by the concatenation path, in source order. -/
def checkRequiredParams (p q : PCMAudio) : Option AudioErr :=
  if p.valid = false ∨ q.valid = false then some .notValidated
  else if p.hd.SampleRate ≠ q.hd.SampleRate then some .rateMismatch
  else if p.hd.BitsPerSample ≠ q.hd.BitsPerSample then some .bitsMismatch
  else if p.hd.NumChannels ≠ q.hd.NumChannels then some .channelsMismatch
  else none

/-- `chooseMode` from the source: mono only when both inputs are mono,
stereo otherwise. -/
def chooseMode (p q : PCMAudio) : Nat :=
  if p.hd.NumChannels = mono ∧ q.hd.NumChannels = mono then mono else stereo

/-- Modelled from the spec: the body of `PCMAudio.Concat` is not among
the provided sources (the README declares the method and the source
provides its helpers `checkRequiredParams` and `chooseMode`, but the
method body itself is missing).  Following §4.3 of the spec, the output
header keeps the left header's channel count, sample rate, byte rate,
block align and bit depth, recomputes `dataChunkSize` as the sum of the
two payload sizes and `totalSize` as 36 plus that sum, and carries the
canonical tag fields. -/
def concatHeaders (p q : Headers) : Headers where
  ChunkID := riffTag
  ChunkSize := (36 + p.SubChunk2Size + q.SubChunk2Size) % 4294967296
  Format := waveTag
  SubChunk1ID := fmtTag
  SubChunk1Size := subChunk1Size
  AudioFormat := audioFormat
  NumChannels := p.NumChannels
  SampleRate := p.SampleRate
  ByteRate := p.ByteRate
  BlockAlign := p.BlockAlign
  BitsPerSample := p.BitsPerSample
  SubChunk2ID := dataTag
  SubChunk2Size := (p.SubChunk2Size + q.SubChunk2Size) % 4294967296

/-- Modelled from the spec: `PCMAudio.Concat p q output` — preconditions
via the source's `checkRequiredParams`, then (per §4.3) the output
header is written first, followed by the left payload verbatim and the
right payload verbatim. -/
def concatRun (p q : PCMAudio) : Option AudioErr × List Nat :=
  match checkRequiredParams p q with
  | some e => (some e, [])
  | none => (none, encodeHeaders (concatHeaders p.hd q.hd) ++ p.payload ++ q.payload)

/-- Alternating frames of two equally long frame lists: left frame, then
right frame, for each index. -/
def interleaveFrames : List (List Nat) → List (List Nat) → List (List Nat)
  | f :: F, g :: G => f :: g :: interleaveFrames F G
  | _, _ => []

/-! ### Concrete fixtures (valid 8-bit mono / stereo files) -/

/-- A canonical valid mono 8-bit 8kHz header with a 4-byte payload. -/
def hMono : Headers :=
  ⟨riffTag, 40, waveTag, fmtTag, 16, 1, 1, 8000, 8000, 1, 8, dataTag, 4⟩

/-- A canonical valid stereo 8-bit 8kHz header with a 4-byte payload. -/
def hStereo : Headers :=
  { hMono with NumChannels := 2, BlockAlign := 2, ByteRate := 16000 }

/-- A validated mono handle with payload `[1, 2, 3, 4]`. -/
def pM : PCMAudio := ⟨hMono, [1, 2, 3, 4], 44, true⟩

/-- A validated mono handle with payload `[5, 6, 7, 8]`. -/
def qM : PCMAudio := ⟨hMono, [5, 6, 7, 8], 44, true⟩

/-- A validated stereo handle with payload `[1, 2, 3, 4]`. -/
def pS : PCMAudio := ⟨hStereo, [1, 2, 3, 4], 44, true⟩

/-- A validated stereo handle with payload `[5, 6, 7, 8]`. -/
def qS : PCMAudio := ⟨hStereo, [5, 6, 7, 8], 44, true⟩

/-- A handle that was never validated. -/
def pInvalid : PCMAudio := ⟨hMono, [1, 2], 44, false⟩

/-- A validated handle whose sample rate differs from `hMono`. -/
def qRate : PCMAudio :=
  ⟨{ hMono with SampleRate := 44100, ByteRate := 44100 }, [5, 6], 44, true⟩

/-- A validated handle whose bit depth differs from `hMono`. -/
def qBits : PCMAudio :=
  ⟨{ hMono with BitsPerSample := 16, BlockAlign := 2, ByteRate := 16000 },
    [5, 6], 44, true⟩

/-- A validated mono 8-bit handle whose payload holds a single frame. -/
def leftShort : PCMAudio :=
  ⟨{ hMono with SubChunk2Size := 1, ChunkSize := 37 }, [10], 44, true⟩

/-- A validated mono 8-bit handle whose payload holds four frames. -/
def rightLong : PCMAudio :=
  ⟨{ hMono with SubChunk2Size := 4, ChunkSize := 40 }, [20, 30, 40, 50], 44, true⟩

/-! ### Lemmas about the byte-level codec -/

theorem encodeHeaders_length (h : Headers) (hc : h.ChunkID.length = 4)
    (hf : h.Format.length = 4) (h1 : h.SubChunk1ID.length = 4)
    (h2 : h.SubChunk2ID.length = 4) : (encodeHeaders h).length = 44 := by
  simp [encodeHeaders, u32le, u16le, hc, hf, h1, h2]

theorem u16le_length (v : Nat) : (u16le v).length = 2 := rfl

theorem u32le_length (v : Nat) : (u32le v).length = 4 := rfl

theorem fromLE_u16 (v : Nat) (h : v < 65536) : fromLE (u16le v) = v := by
  simp only [u16le, fromLE]
  omega

theorem fromLE_u32 (v : Nat) (h : v < 4294967296) : fromLE (u32le v) = v := by
  simp only [u32le, fromLE]
  omega

/-! ### Lemmas about the merge loop -/

theorem mergeLoopF_fuel (s : Nat) : ∀ a : Nat, ∀ l r : List Nat, ∀ b : Nat,
    l.length + r.length < a → l.length + r.length < b →
    mergeLoopF a s l r = mergeLoopF b s l r := by
  intro a
  induction a with
  | zero => intro l r b ha _; omega
  | succ a ih =>
    intro l r b ha hb
    cases b with
    | zero => omega
    | succ b =>
      simp only [mergeLoopF]
      by_cases h1 : (l = [] ∨ min s l.length = 0) ∧ (r = [] ∨ min s r.length = 0)
      · rw [if_pos h1, if_pos h1]
      · rw [if_neg h1, if_neg h1]
        by_cases h2 : l = [] ∨ r = []
        · rw [if_pos h2, if_pos h2]
        · rw [if_neg h2, if_neg h2]
          have hl : l ≠ [] := fun h => h2 (Or.inl h)
          have hr : r ≠ [] := fun h => h2 (Or.inr h)
          have hll : 0 < l.length := List.length_pos.mpr hl
          have hrr : 0 < r.length := List.length_pos.mpr hr
          have hs : 0 < s := by
            rcases Nat.eq_zero_or_pos s with h0 | h
            · exact absurd ⟨Or.inr (by simp [h0]), Or.inr (by simp [h0])⟩ h1
            · exact h
          have hd : (l.drop s).length + (r.drop s).length < a ∧
              (l.drop s).length + (r.drop s).length < b := by
            simp only [List.length_drop]
            omega
          rw [ih (l.drop s) (r.drop s) b hd.1 hd.2]

theorem mergeLoop_nil_nil (s : Nat) : mergeLoop s [] [] = ([], [], []) := by
  simp [mergeLoop, mergeLoopF]

theorem mergeLoop_cons (s : Nat) (f g l r : List Nat) (hs : 0 < s)
    (hf : f.length = s) (hg : g.length = s) :
    mergeLoop s (f ++ l) (g ++ r) =
      (f ++ g ++ (mergeLoop s l r).1, (mergeLoop s l r).2.1, (mergeLoop s l r).2.2) := by
  have hfl : (f ++ l).length = s + l.length := by simp [hf]
  have hgl : (g ++ r).length = s + r.length := by simp [hg]
  have hstep : (f ++ l).length + (g ++ r).length + 1 =
      (s + s + l.length + r.length) + 1 := by omega
  rw [mergeLoop, hstep]
  simp only [mergeLoopF]
  have hne : ¬((f ++ l = [] ∨ min s (f ++ l).length = 0) ∧
      (g ++ r = [] ∨ min s (g ++ r).length = 0)) := by
    intro hcon
    rcases hcon.1 with h | h
    · have := congrArg List.length h
      simp [hfl] at this
      omega
    · rw [hfl] at h
      omega
  rw [if_neg hne]
  have hminl : min s (f ++ l).length = s := by rw [hfl]; omega
  have hminr : min s (g ++ r).length = s := by rw [hgl]; omega
  rw [if_pos hminl, if_pos hminr] at *
  have hne2 : ¬(f ++ l = [] ∨ g ++ r = []) := by
    intro hcon
    rcases hcon with h | h
    · have := congrArg List.length h; simp [hfl] at this; omega
    · have := congrArg List.length h; simp [hgl] at this; omega
  rw [if_neg hne2]
  rw [List.take_left' hf, List.take_left' hg, List.drop_left' hf, List.drop_left' hg]
  have hfuel : mergeLoopF (s + s + l.length + r.length) s l r =
      mergeLoopF (l.length + r.length + 1) s l r := by
    apply mergeLoopF_fuel <;> omega
  rw [hfuel, mergeLoop, List.append_assoc]

theorem interleaveFrames_length : ∀ F G : List (List Nat), F.length = G.length →
    (interleaveFrames F G).length = 2 * F.length := by
  intro F
  induction F with
  | nil =>
    intro G hG
    cases G with
    | nil => simp [interleaveFrames]
    | cons g G => simp at hG
  | cons f F ih =>
    intro G hG
    cases G with
    | nil => simp at hG
    | cons g G =>
      simp only [List.length_cons] at hG
      simp only [interleaveFrames, List.length_cons, ih G (by omega)]
      omega

theorem interleaveFrames_get_even : ∀ F G : List (List Nat), ∀ i : Nat,
    i < F.length → F.length = G.length →
    (interleaveFrames F G).get? (2 * i) = F.get? i := by
  intro F
  induction F with
  | nil => intro G i hi _; simp at hi
  | cons f F ih =>
    intro G i hi hG
    cases G with
    | nil => simp at hG
    | cons g G =>
      cases i with
      | zero => simp [interleaveFrames]
      | succ i =>
        have h2 : 2 * (i + 1) = (2 * i) + 1 + 1 := by omega
        simp only [interleaveFrames, h2, List.get?_cons_succ]
        exact ih G i (by simp at hi; omega) (by simp at hG; omega)

theorem interleaveFrames_get_odd : ∀ F G : List (List Nat), ∀ i : Nat,
    i < F.length → F.length = G.length →
    (interleaveFrames F G).get? (2 * i + 1) = G.get? i := by
  intro F
  induction F with
  | nil => intro G i hi _; simp at hi
  | cons f F ih =>
    intro G i hi hG
    cases G with
    | nil => simp at hG
    | cons g G =>
      cases i with
      | zero => simp [interleaveFrames]
      | succ i =>
        have h2 : 2 * (i + 1) + 1 = (2 * i + 1) + 1 + 1 := by omega
        simp only [interleaveFrames, h2, List.get?_cons_succ]
        exact ih G i (by simp at hi; omega) (by simp at hG; omega)

/-- On two payloads consisting of equally many full `s`-byte frames the
merge loop interleaves them frame by frame and exhausts both sides. -/
theorem mergeLoop_flatten (s : Nat) (hs : 0 < s) : ∀ F G : List (List Nat),
    F.length = G.length →
    (∀ f ∈ F, f.length = s) → (∀ g ∈ G, g.length = s) →
    mergeLoop s F.flatten G.flatten = ((interleaveFrames F G).flatten, [], []) := by
  intro F
  induction F with
  | nil =>
    intro G hG _ _
    cases G with
    | nil => simp [interleaveFrames, mergeLoop_nil_nil]
    | cons g G => simp at hG
  | cons f F ih =>
    intro G hG hF hGs
    cases G with
    | nil => simp at hG
    | cons g G =>
      simp only [List.flatten_cons]
      rw [mergeLoop_cons s f g F.flatten G.flatten hs
        (hF f (by simp)) (hGs g (by simp))]
      rw [ih G (by simp at hG; omega)
        (fun x hx => hF x (by simp [hx]))
        (fun x hx => hGs x (by simp [hx]))]
      simp [interleaveFrames]

/-- C7: for every header value `h` (well-formed as the image of a Go
`headers` struct), decoding the exact 44-byte little-endian encoding of
`h` yields `h` again, consuming exactly those 44 bytes:
`decode (encode h) = h`. -/
theorem decode_encode_roundtrip (h : Headers) (hw : h.WF) :
    decodeHeaders (encodeHeaders h) = some (h, []) := by
  obtain ⟨hc, hf, h1, h2, _, _, _, _, b1, b2, b3, b4, b5, b6, b7, b8, b9⟩ := hw
  have hlen : (encodeHeaders h).length = 44 := encodeHeaders_length h hc hf h1 h2
  rw [decodeHeaders, if_pos (by omega)]
  simp [encodeHeaders, List.take_append_eq_append_take,
    List.drop_append_eq_append_drop, List.take_of_length_le,
    List.drop_of_length_le, List.length_append, hc, hf, h1, h2, u32le_length,
    u16le_length, fromLE_u32, fromLE_u16, b1, b2, b3, b4, b5, b6, b7, b8, b9]

/-- Witness for C7 at the canonical mono header. -/
theorem decode_encode_roundtrip_witness :
    decodeHeaders (encodeHeaders hMono) = some (hMono, []) :=
  decode_encode_roundtrip hMono (by decide)

/-- C8: `NewPCMAudio` reads exactly 44 bytes; for every byte source with
fewer than 44 bytes it fails and returns no partial handle, and for
every source with at least 44 bytes it succeeds with no semantic
validation (arbitrary content), leaving the cursor right after the 44
header bytes. -/
theorem newPCMAudio_reads_exactly_44 (bs : List Nat) :
    (bs.length < 44 → NewPCMAudio bs = none) ∧
    (44 ≤ bs.length → ∃ p : PCMAudio, NewPCMAudio bs = some p ∧
      p.valid = false ∧ p.pos = 44 ∧ p.payload = bs.drop 44) := by
  constructor
  · intro hlt
    unfold NewPCMAudio decodeHeaders
    rw [if_neg (by omega)]
  · intro hge
    unfold NewPCMAudio decodeHeaders
    rw [if_pos hge]
    exact ⟨_, rfl, rfl, rfl, rfl⟩

/-- Witness for C8: a 1-byte source fails, a 44-byte source (with
arbitrary tag content, here a valid header) succeeds. -/
theorem newPCMAudio_reads_exactly_44_witness :
    NewPCMAudio [0] = none ∧
    (∃ p : PCMAudio, NewPCMAudio (encodeHeaders hMono) = some p ∧
      p.valid = false ∧ p.pos = 44 ∧ p.payload = (encodeHeaders hMono).drop 44) :=
  ⟨(newPCMAudio_reads_exactly_44 [0]).1 (by decide),
    (newPCMAudio_reads_exactly_44 (encodeHeaders hMono)).2 (by decide)⟩

/-- C4: `Validate` performs exactly five checks in source order
(container tag, format tag, fmt-chunk tag, fmt-chunk size together with
codec id, data tag); the first failing check wins and yields a distinct
error kind; a header with codec id 2 fails with the distinct not-PCM
error whenever the earlier tag checks pass, regardless of every other
field; success is returned exactly when all five checks pass. -/
theorem validate_check_order (h : Headers) :
    (h.ChunkID ≠ riffTag → validateH h = some ValErr.riffMismatch) ∧
    (h.ChunkID = riffTag → h.Format ≠ waveTag →
      validateH h = some ValErr.formatMismatch) ∧
    (h.ChunkID = riffTag → h.Format = waveTag → h.SubChunk1ID ≠ fmtTag →
      validateH h = some ValErr.fmtChunkMismatch) ∧
    (h.ChunkID = riffTag → h.Format = waveTag → h.SubChunk1ID = fmtTag →
      (h.SubChunk1Size ≠ subChunk1Size ∨ h.AudioFormat ≠ audioFormat) →
      validateH h = some ValErr.notPCM) ∧
    (h.ChunkID = riffTag → h.Format = waveTag → h.SubChunk1ID = fmtTag →
      h.SubChunk1Size = subChunk1Size → h.AudioFormat = audioFormat →
      h.SubChunk2ID ≠ dataTag → validateH h = some ValErr.dataMismatch) ∧
    (validateH h = none ↔ h.ChunkID = riffTag ∧ h.Format = waveTag ∧
      h.SubChunk1ID = fmtTag ∧ h.SubChunk1Size = subChunk1Size ∧
      h.AudioFormat = audioFormat ∧ h.SubChunk2ID = dataTag) ∧
    (h.ChunkID = riffTag → h.Format = waveTag → h.SubChunk1ID = fmtTag →
      h.AudioFormat = 2 → validateH h = some ValErr.notPCM) ∧
    (([ValErr.riffMismatch, ValErr.formatMismatch, ValErr.fmtChunkMismatch,
      ValErr.notPCM, ValErr.dataMismatch] : List ValErr).Pairwise (· ≠ ·)) := by
  refine ⟨?_, ?_, ?_, ?_, ?_, ?_, ?_, by decide⟩
  · intro a; simp [validateH, a]
  · intro a b; simp [validateH, a, b]
  · intro a b c; simp [validateH, a, b, c]
  · intro a b c d
    unfold validateH
    rw [if_neg (by simp [a]), if_neg (by simp [b]), if_neg (by simp [c]),
      if_pos d]
  · intro a b c d e f
    unfold validateH
    rw [if_neg (by simp [a]), if_neg (by simp [b]), if_neg (by simp [c]),
      if_neg (by simp [d, e]), if_pos f]
  · unfold validateH
    split_ifs with x1 x2 x3 x4 x5
    · simp_all
    · simp_all
    · simp_all
    · constructor
      · intro hc; simp at hc
      · rintro ⟨-, -, -, d1, e1, -⟩
        rcases x4 with hx | hx
        · exact hx d1
        · exact hx e1
    · simp_all
    · simp_all
  · intro a b c d
    unfold validateH
    rw [if_neg (by simp [a]), if_neg (by simp [b]), if_neg (by simp [c]),
      if_pos (Or.inr (by simp [d, audioFormat]))]

/-- Witness for C4: a header whose only deviation is codec id 2 fails
with the not-PCM error; the canonical header passes all five checks. -/
theorem validate_check_order_witness :
    validateH { hMono with AudioFormat := 2 } = some ValErr.notPCM ∧
    validateH hMono = none :=
  ⟨(validate_check_order { hMono with AudioFormat := 2 }).2.2.2.2.2.2.1
      rfl rfl rfl rfl,
    (validate_check_order hMono).2.2.2.2.2.1.mpr (by decide)⟩

/-- C6: each failed `Merge` precondition (unvalidated handle, sample
rate mismatch, bit depth mismatch) yields its own distinct error, writes
nothing to the output sink, and leaves both input handles unchanged. -/
theorem merge_precondition_errors (p q : PCMAudio) :
    (p.valid = false ∨ q.valid = false →
      mergeRun p q = (some AudioErr.notValidated, [], p, q)) ∧
    (p.valid = true → q.valid = true → p.hd.SampleRate ≠ q.hd.SampleRate →
      mergeRun p q = (some AudioErr.rateMismatch, [], p, q)) ∧
    (p.valid = true → q.valid = true → p.hd.SampleRate = q.hd.SampleRate →
      p.hd.BitsPerSample ≠ q.hd.BitsPerSample →
      mergeRun p q = (some AudioErr.bitsMismatch, [], p, q)) ∧
    (AudioErr.notValidated ≠ AudioErr.rateMismatch ∧
      AudioErr.notValidated ≠ AudioErr.bitsMismatch ∧
      AudioErr.rateMismatch ≠ AudioErr.bitsMismatch) := by
  refine ⟨?_, ?_, ?_, by decide⟩
  · intro hv
    unfold mergeRun
    rw [if_pos hv]
  · intro hv1 hv2 hr
    unfold mergeRun
    rw [if_neg (by simp [hv1, hv2]), if_pos hr]
  · intro hv1 hv2 hr hb
    unfold mergeRun
    rw [if_neg (by simp [hv1, hv2]), if_neg (by simp [hr]), if_pos hb]

/-- Witness for C6 at concrete failing pairs of handles. -/
theorem merge_precondition_errors_witness :
    mergeRun pInvalid qM = (some AudioErr.notValidated, [], pInvalid, qM) ∧
    mergeRun pM qRate = (some AudioErr.rateMismatch, [], pM, qRate) ∧
    mergeRun pM qBits = (some AudioErr.bitsMismatch, [], pM, qBits) :=
  ⟨(merge_precondition_errors pInvalid qM).1 (Or.inl rfl),
    (merge_precondition_errors pM qRate).2.1 rfl rfl (by decide),
    (merge_precondition_errors pM qBits).2.2.1 rfl rfl rfl (by decide)⟩

/-- C9: `Merge` performs no channel-count check: for every pair of
validated handles agreeing on sample rate and bit depth (stereo inputs
included) it proceeds without error, and the produced header always
declares channel count 2. -/
theorem merge_no_channel_check (p q : PCMAudio)
    (h1 : p.valid = true) (h2 : q.valid = true)
    (h3 : p.hd.SampleRate = q.hd.SampleRate)
    (h4 : p.hd.BitsPerSample = q.hd.BitsPerSample) :
    (mergeRun p q).1 = none ∧
    (mergeRun p q).2.1 = encodeHeaders (mergeHeaders p.hd q.hd) ++
      (mergeLoop (p.hd.BitsPerSample / 8) p.payload q.payload).1 ∧
    (mergeHeaders p.hd q.hd).NumChannels = stereo := by
  refine ⟨?_, ?_, rfl⟩ <;> simp [mergeRun, h1, h2, h3, h4]

/-- Witness for C9 at a pair of stereo handles. -/
theorem merge_no_channel_check_witness :
    (mergeRun pS qS).1 = none ∧
    (mergeRun pS qS).2.1 = encodeHeaders (mergeHeaders pS.hd qS.hd) ++
      (mergeLoop (pS.hd.BitsPerSample / 8) pS.payload qS.payload).1 ∧
    (mergeHeaders pS.hd qS.hd).NumChannels = stereo :=
  merge_no_channel_check pS qS rfl rfl rfl rfl

/-- C10: `chooseMode` returns mono exactly when both inputs are mono,
and stereo for every other combination of channel counts. -/
theorem chooseMode_spec (p q : PCMAudio) :
    (chooseMode p q = mono ↔
      (p.hd.NumChannels = mono ∧ q.hd.NumChannels = mono)) ∧
    (¬(p.hd.NumChannels = mono ∧ q.hd.NumChannels = mono) →
      chooseMode p q = stereo) := by
  unfold chooseMode
  by_cases hb : p.hd.NumChannels = mono ∧ q.hd.NumChannels = mono
  · rw [if_pos hb]
    exact ⟨⟨fun _ => hb, fun _ => rfl⟩, fun hc => absurd hb hc⟩
  · rw [if_neg hb]
    exact ⟨⟨fun he => absurd he (by decide), fun hcon => absurd hcon hb⟩,
      fun _ => rfl⟩

/-- Witness for C10: mono plus mono gives mono, mono plus stereo gives
stereo. -/
theorem chooseMode_spec_witness :
    chooseMode pM qM = mono ∧ chooseMode pM qS = stereo :=
  ⟨(chooseMode_spec pM qM).1.mpr (by decide),
    (chooseMode_spec pM qS).2 (by decide)⟩

/-- C3: a successful `Merge` writes the 44-byte header before any
sample data, with channel count 2, data chunk size equal to the sum of
the input payload sizes, block align twice the sample size, byte rate
equal to sample rate times block align, total size 36 plus the data
chunk size (all in `uint32` / `uint16` arithmetic), and the four
canonical tag fields. -/
theorem merge_output_header (p q : PCMAudio)
    (h1 : p.valid = true) (h2 : q.valid = true)
    (h3 : p.hd.SampleRate = q.hd.SampleRate)
    (h4 : p.hd.BitsPerSample = q.hd.BitsPerSample)
    (h5 : p.hd.BitsPerSample < 65536) :
    (mergeRun p q).1 = none ∧
    (mergeRun p q).2.1 = encodeHeaders (mergeHeaders p.hd q.hd) ++
      (mergeLoop (p.hd.BitsPerSample / 8) p.payload q.payload).1 ∧
    (encodeHeaders (mergeHeaders p.hd q.hd)).length = 44 ∧
    (mergeHeaders p.hd q.hd).NumChannels = 2 ∧
    (mergeHeaders p.hd q.hd).SubChunk2Size =
      (p.hd.SubChunk2Size + q.hd.SubChunk2Size) % 4294967296 ∧
    (mergeHeaders p.hd q.hd).BlockAlign = 2 * (p.hd.BitsPerSample / 8) ∧
    (mergeHeaders p.hd q.hd).ByteRate =
      (p.hd.SampleRate * (mergeHeaders p.hd q.hd).BlockAlign) % 4294967296 ∧
    (mergeHeaders p.hd q.hd).ChunkSize =
      (36 + (mergeHeaders p.hd q.hd).SubChunk2Size) % 4294967296 ∧
    (mergeHeaders p.hd q.hd).ChunkID = riffTag ∧
    (mergeHeaders p.hd q.hd).Format = waveTag ∧
    (mergeHeaders p.hd q.hd).SubChunk1ID = fmtTag ∧
    (mergeHeaders p.hd q.hd).SubChunk2ID = dataTag := by
  refine ⟨?_, ?_, encodeHeaders_length _ rfl rfl rfl rfl, rfl, rfl, ?_, rfl,
    ?_, rfl, rfl, rfl, rfl⟩
  · simp [mergeRun, h1, h2, h3, h4]
  · simp [mergeRun, h1, h2, h3, h4]
  · show (stereo * (p.hd.BitsPerSample / 8)) % 65536 = 2 * (p.hd.BitsPerSample / 8)
    unfold stereo
    omega
  · show (36 + p.hd.SubChunk2Size + q.hd.SubChunk2Size) % 4294967296 =
      (36 + (p.hd.SubChunk2Size + q.hd.SubChunk2Size) % 4294967296) % 4294967296
    omega

/-- Witness for C3 at a pair of valid mono handles. -/
theorem merge_output_header_witness :
    (mergeRun pM qM).1 = none ∧
    (mergeRun pM qM).2.1 = encodeHeaders (mergeHeaders pM.hd qM.hd) ++
      (mergeLoop (pM.hd.BitsPerSample / 8) pM.payload qM.payload).1 ∧
    (encodeHeaders (mergeHeaders pM.hd qM.hd)).length = 44 ∧
    (mergeHeaders pM.hd qM.hd).NumChannels = 2 ∧
    (mergeHeaders pM.hd qM.hd).SubChunk2Size =
      (pM.hd.SubChunk2Size + qM.hd.SubChunk2Size) % 4294967296 ∧
    (mergeHeaders pM.hd qM.hd).BlockAlign = 2 * (pM.hd.BitsPerSample / 8) ∧
    (mergeHeaders pM.hd qM.hd).ByteRate =
      (pM.hd.SampleRate * (mergeHeaders pM.hd qM.hd).BlockAlign) % 4294967296 ∧
    (mergeHeaders pM.hd qM.hd).ChunkSize =
      (36 + (mergeHeaders pM.hd qM.hd).SubChunk2Size) % 4294967296 ∧
    (mergeHeaders pM.hd qM.hd).ChunkID = riffTag ∧
    (mergeHeaders pM.hd qM.hd).Format = waveTag ∧
    (mergeHeaders pM.hd qM.hd).SubChunk1ID = fmtTag ∧
    (mergeHeaders pM.hd qM.hd).SubChunk2ID = dataTag :=
  merge_output_header pM qM rfl rfl rfl rfl (by decide)

/-- C2: merging two validated compatible handles whose payloads both
consist of exactly N full frames writes, after the header, exactly 2N
frames, where output frame 2i is the left input's frame i and output
frame 2i+1 is the right input's frame i. -/
theorem merge_equal_interleaves (p q : PCMAudio) (F G : List (List Nat))
    (h1 : p.valid = true) (h2 : q.valid = true)
    (h3 : p.hd.SampleRate = q.hd.SampleRate)
    (h4 : p.hd.BitsPerSample = q.hd.BitsPerSample)
    (hs : 0 < p.hd.BitsPerSample / 8)
    (hF : p.payload = F.flatten) (hG : q.payload = G.flatten)
    (hlen : F.length = G.length)
    (hFs : ∀ f ∈ F, f.length = p.hd.BitsPerSample / 8)
    (hGs : ∀ g ∈ G, g.length = p.hd.BitsPerSample / 8) :
    (mergeRun p q).1 = none ∧
    (mergeRun p q).2.1 = encodeHeaders (mergeHeaders p.hd q.hd) ++
      (interleaveFrames F G).flatten ∧
    (interleaveFrames F G).length = 2 * F.length ∧
    (∀ i, i < F.length →
      (interleaveFrames F G).get? (2 * i) = F.get? i ∧
      (interleaveFrames F G).get? (2 * i + 1) = G.get? i) := by
  have hloop := mergeLoop_flatten (p.hd.BitsPerSample / 8) hs F G hlen hFs hGs
  refine ⟨?_, ?_, interleaveFrames_length F G hlen, fun i hi =>
    ⟨interleaveFrames_get_even F G i hi hlen,
      interleaveFrames_get_odd F G i hi hlen⟩⟩
  · simp [mergeRun, h1, h2, h3, h4]
  · rw [h4] at hloop
    simp [mergeRun, h1, h2, h3, h4, hF, hG, hloop]

/-- Witness for C2 at two validated 8-bit mono handles of four frames
each. -/
theorem merge_equal_interleaves_witness :
    (mergeRun pM qM).1 = none ∧
    (mergeRun pM qM).2.1 = encodeHeaders (mergeHeaders pM.hd qM.hd) ++
      (interleaveFrames [[1], [2], [3], [4]] [[5], [6], [7], [8]]).flatten ∧
    (interleaveFrames [[1], [2], [3], [4]] [[5], [6], [7], [8]]).length =
      2 * ([[1], [2], [3], [4]] : List (List Nat)).length ∧
    (∀ i, i < ([[1], [2], [3], [4]] : List (List Nat)).length →
      (interleaveFrames [[1], [2], [3], [4]] [[5], [6], [7], [8]]).get? (2 * i) =
        ([[1], [2], [3], [4]] : List (List Nat)).get? i ∧
      (interleaveFrames [[1], [2], [3], [4]] [[5], [6], [7], [8]]).get? (2 * i + 1) =
        ([[5], [6], [7], [8]] : List (List Nat)).get? i) :=
  merge_equal_interleaves pM qM [[1], [2], [3], [4]] [[5], [6], [7], [8]]
    rfl rfl rfl rfl (by decide) rfl rfl rfl (by decide) (by decide)

/-- C1 (refuted, code bug): merging a validated 1-frame left input with
a validated 4-frame right input (8-bit samples, frame size 1) succeeds
but writes only the frames `[10, 20, 0, 30]` — one zero-padded pair —
and stops with the right side's frames `[40, 50]` unread, although the
header it wrote promises 5 payload bytes; the claimed output of
`2 * 4` frames with `4 - 1` zero-padded left frames is not produced,
because the read loop breaks as soon as either side reports end of
stream. -/
theorem merge_unequal_truncates :
    (mergeRun leftShort rightLong).1 = none ∧
    (mergeRun leftShort rightLong).2.1 =
      encodeHeaders (mergeHeaders leftShort.hd rightLong.hd) ++ [10, 20, 0, 30] ∧
    (mergeLoop 1 [10] [20, 30, 40, 50]).1 = [10, 20, 0, 30] ∧
    (mergeLoop 1 [10] [20, 30, 40, 50]).2.2 = [40, 50] ∧
    (mergeHeaders leftShort.hd rightLong.hd).SubChunk2Size = 5 ∧
    ((mergeLoop 1 [10] [20, 30, 40, 50]).1).length ≠ 2 * 4 * 1 := by
  decide

/-- C5: `Concat` (body modelled from the spec, preconditions from the
source's `checkRequiredParams`) writes the output header first —
channel count, block align, byte rate inherited from the left input,
data chunk size the sum of the two payload sizes, total size 36 plus
that sum — then the left payload verbatim, then the right payload
verbatim, so output frames [0, N) are the left input's frames and
frames [N, N+M) are the right input's frames. -/
theorem concat_spec (p q : PCMAudio) (F G : List (List Nat))
    (h1 : p.valid = true) (h2 : q.valid = true)
    (h3 : p.hd.SampleRate = q.hd.SampleRate)
    (h4 : p.hd.BitsPerSample = q.hd.BitsPerSample)
    (h5 : p.hd.NumChannels = q.hd.NumChannels)
    (hF : p.payload = F.flatten) (hG : q.payload = G.flatten) :
    concatRun p q =
      (none, encodeHeaders (concatHeaders p.hd q.hd) ++ p.payload ++ q.payload) ∧
    (concatHeaders p.hd q.hd).NumChannels = p.hd.NumChannels ∧
    (concatHeaders p.hd q.hd).SubChunk2Size =
      (p.hd.SubChunk2Size + q.hd.SubChunk2Size) % 4294967296 ∧
    (concatHeaders p.hd q.hd).BlockAlign = p.hd.BlockAlign ∧
    (concatHeaders p.hd q.hd).ByteRate = p.hd.ByteRate ∧
    (concatHeaders p.hd q.hd).ChunkSize =
      (36 + (concatHeaders p.hd q.hd).SubChunk2Size) % 4294967296 ∧
    p.payload ++ q.payload = (F ++ G).flatten ∧
    (F ++ G).length = F.length + G.length ∧
    (∀ i, i < F.length → (F ++ G).get? i = F.get? i) ∧
    (∀ j, (F ++ G).get? (F.length + j) = G.get? j) := by
  refine ⟨?_, rfl, rfl, rfl, rfl, ?_, ?_, by simp, ?_, ?_⟩
  · simp [concatRun, checkRequiredParams, h1, h2, h3, h4, h5]
  · show (36 + p.hd.SubChunk2Size + q.hd.SubChunk2Size) % 4294967296 =
      (36 + (p.hd.SubChunk2Size + q.hd.SubChunk2Size) % 4294967296) % 4294967296
    omega
  · rw [hF, hG, List.flatten_append]
  · intro i hi
    exact List.get?_append hi
  · intro j
    rw [List.get?_append_right (by omega)]
    congr 1
    omega

/-- Witness for C5 at two validated mono handles of four frames each. -/
theorem concat_spec_witness :
    concatRun pM qM =
      (none, encodeHeaders (concatHeaders pM.hd qM.hd) ++ pM.payload ++ qM.payload) ∧
    (concatHeaders pM.hd qM.hd).NumChannels = pM.hd.NumChannels ∧
    (concatHeaders pM.hd qM.hd).SubChunk2Size =
      (pM.hd.SubChunk2Size + qM.hd.SubChunk2Size) % 4294967296 ∧
    (concatHeaders pM.hd qM.hd).BlockAlign = pM.hd.BlockAlign ∧
    (concatHeaders pM.hd qM.hd).ByteRate = pM.hd.ByteRate ∧
    (concatHeaders pM.hd qM.hd).ChunkSize =
      (36 + (concatHeaders pM.hd qM.hd).SubChunk2Size) % 4294967296 ∧
    pM.payload ++ qM.payload =
      (([[1], [2], [3], [4]] : List (List Nat)) ++ [[5], [6], [7], [8]]).flatten ∧
    (([[1], [2], [3], [4]] : List (List Nat)) ++ [[5], [6], [7], [8]]).length =
      ([[1], [2], [3], [4]] : List (List Nat)).length +
        ([[5], [6], [7], [8]] : List (List Nat)).length ∧
    (∀ i, i < ([[1], [2], [3], [4]] : List (List Nat)).length →
      (([[1], [2], [3], [4]] : List (List Nat)) ++ [[5], [6], [7], [8]]).get? i =
        ([[1], [2], [3], [4]] : List (List Nat)).get? i) ∧
    (∀ j, (([[1], [2], [3], [4]] : List (List Nat)) ++ [[5], [6], [7], [8]]).get?
        (([[1], [2], [3], [4]] : List (List Nat)).length + j) =
      ([[5], [6], [7], [8]] : List (List Nat)).get? j) :=
  concat_spec pM qM [[1], [2], [3], [4]] [[5], [6], [7], [8]]
    rfl rfl rfl rfl rfl rfl rfl

end Audio
